import Mathlib

/-!
Verification development for the SlideKick Strategic Research Copilot repository.

The definitions below are shallow embeddings of the repository's code:
* the client research hook (`web/src/hooks/use-research.ts`, second revision,
  the one with the LLM-provider toggle and structured error info);
* the query form (`web/src/components/query-input.tsx`);
* the response viewer's download-marker extraction and the error banner
  (`web/src/components/response-viewer.tsx` / `error-banner.tsx`);
* the financial-data MCP server tool handlers (Alpha Vantage backend);
* the workflow engine's Critic loop decision, modelled from the design
  document since the Python agent sources are not part of this repository.

JavaScript-specific behaviours (truthiness of `x || y`, `String.prototype.trim`,
`String.prototype.toUpperCase` on ASCII tickers) are embedded explicitly by the
`js...` helper functions.  Wall-clock timestamps and network transport are
outside the embedding; events carry all remaining fields of the source records.
-/

/-! ## JavaScript semantics helpers -/

/-- JS `a || b` on an optional string: `undefined`/`null` and `""` are falsy. -/
def jsOrString (x : Option String) (dflt : String) : String :=
  match x with
  | none => dflt
  | some v => if v = "" then dflt else v

/-- JS `a || null` on an optional string: `""` collapses to `null`. -/
def jsOrNullString (x : Option String) : Option String :=
  match x with
  | none => none
  | some v => if v = "" then none else some v

/-- JS `a || null` on an optional number: `0` is falsy and collapses to `null`. -/
def jsOrNullNum (x : Option ℚ) : Option ℚ :=
  match x with
  | none => none
  | some v => if v = 0 then none else some v

/-- JS string interpolation of a possibly-undefined value. -/
def jsShowOpt (x : Option String) : String :=
  match x with
  | none => "undefined"
  | some v => v

/-- JS whitespace characters recognised by `String.prototype.trim`
(the ASCII subset, which is all the query form ever receives). -/
def isJsSpace (c : Char) : Bool :=
  c = ' ' ∨ c = '\t' ∨ c = '\n' ∨ c = '\r' ∨ c = '\x0b' ∨ c = '\x0c'

/-- JS `String.prototype.trim`: strip leading and trailing whitespace. -/
def jsTrim (s : String) : String :=
  String.mk (((s.toList.dropWhile isJsSpace).reverse.dropWhile isJsSpace).reverse)

/-- JS `String.prototype.toUpperCase` (ASCII, as used on ticker symbols). -/
def jsToUpper (s : String) : String :=
  String.mk (s.toList.map Char.toUpper)

/-! ## Client data model (`use-research.ts`, `log-viewer.tsx`, `error-banner.tsx`) -/

/-- Rate-limit payload attached by the backend to an `error` event
(`error-banner.tsx`, `RateLimitInfo`). -/
structure RateLimitInfo where
  limit_type : String
  limit_type_friendly : String
  retry_after : Option ℚ
  retry_after_friendly : String
  suggestion : String
deriving DecidableEq, Repr

/-- Structured error stored in the client state (`error-banner.tsx`, `ErrorInfo`).
`error_type` is `"rate_limit"` or `"general"` in the source's union type. -/
structure ErrorInfo where
  message : String
  error_type : String
  rate_limit : Option RateLimitInfo
deriving DecidableEq, Repr

/-- Metadata a recorded event may carry (`addEvent` call sites). -/
inductive EventMeta where
  | retrieval (source : Option String) (result_count : Option ℚ)
  | insight (title : Option String) (description : Option String) (confidence : Option ℚ)
deriving DecidableEq, Repr

/-- One recorded log event (`log-viewer.tsx`, `LogEvent`).  The wall-clock
`timestamp` field is outside the embedding. -/
structure LogEvent where
  id : String
  type : String
  node : Option String
  message : String
  metadata : Option EventMeta
deriving DecidableEq, Repr

/-- One parsed server-sent event, with the fields `handleSSEEvent` reads. -/
structure SSEData where
  type : String
  node : Option String
  message : Option String
  error : Option String
  error_type : Option String
  rate_limit : Option RateLimitInfo
  response : Option String
  quality_score : Option ℚ
  sources_used : Option (List String)
  title : Option String
  description : Option String
  confidence : Option ℚ
  source : Option String
  result_count : Option ℚ
  decision : Option String
  reasoning : Option String
deriving DecidableEq, Repr

/-- An `SSEData` record with only the `type` field set. -/
def sseOfType (t : String) : SSEData :=
  ⟨t, none, none, none, none, none, none, none, none, none, none, none, none, none, none, none⟩

/-- The client state of `useResearch`, together with the two refs the hook
keeps alongside it: the event-id counter and whether the `EventSource` has
been closed. -/
structure ClientState where
  isLoading : Bool
  events : List LogEvent
  response : Option String
  qualityScore : Option ℚ
  sources : List String
  error : Option ErrorInfo
  eventIdCounter : ℕ
  streamClosed : Bool
deriving DecidableEq, Repr

/-- State right after `submitQuery` resets it (`isLoading` true, everything
else cleared, the id counter back to 0, a fresh stream open). -/
def clientResetState : ClientState :=
  { isLoading := true, events := [], response := none, qualityScore := none,
    sources := [], error := none, eventIdCounter := 0, streamClosed := false }

/-- The id string `addEvent` builds from the counter. -/
def eventIdString (n : ℕ) : String := "event-" ++ toString n

/-- `addEvent`: append one event carrying the current counter value and bump
the counter. -/
def addEvent (type message : String) (node : Option String) (metadata : Option EventMeta)
    (s : ClientState) : ClientState :=
  { s with
    events := s.events ++
      [{ id := eventIdString s.eventIdCounter, type := type, node := node,
         message := message, metadata := metadata }],
    eventIdCounter := s.eventIdCounter + 1 }

/-- `handleSSEEvent` from the second revision of `use-research.ts`: dispatch
on the event type, record log events via `addEvent`, update the state, and
close the stream on `complete` / `error`.  `query` is the submitted query
captured by the closure. -/
def processSSE (query : String) (data : SSEData) (s : ClientState) : ClientState :=
  match data.type with
  | "start" =>
      addEvent "start" ("Starting research: " ++ query) none none s
  | "node_start" =>
      addEvent data.type (jsOrString data.message "") data.node none s
  | "node_complete" =>
      addEvent data.type (jsOrString data.message "") data.node none s
  | "progress" =>
      addEvent "progress" (jsOrString data.message "") none none s
  | "retrieval" =>
      addEvent "retrieval"
        (jsOrString data.message ("Retrieved data from " ++ jsShowOpt data.source)) none
        (some (EventMeta.retrieval data.source data.result_count)) s
  | "insight" =>
      addEvent "insight" (jsOrString data.description "") none
        (some (EventMeta.insight data.title data.description data.confidence)) s
  | "decision" =>
      addEvent "decision" (jsShowOpt data.decision ++ ": " ++ jsShowOpt data.reasoning)
        none none s
  | "final_response" =>
      addEvent "complete" "Research complete" none none
        { s with
          response := jsOrNullString data.response,
          qualityScore := jsOrNullNum data.quality_score,
          sources := data.sources_used.getD [] }
  | "complete" =>
      { s with streamClosed := true, isLoading := false }
  | "error" =>
      let msg := jsOrString data.error (jsOrString data.message "An error occurred")
      let s' := addEvent "error" msg none none s
      { s' with
        streamClosed := true, isLoading := false,
        error := some { message := msg,
                        error_type := jsOrString data.error_type "general",
                        rate_limit := data.rate_limit } }
  | _ => s

/-- Process a sequence of server-sent events in order. -/
def processEvents (query : String) (es : List SSEData) (s : ClientState) : ClientState :=
  es.foldl (fun acc e => processSSE query e acc) s

/-! ## Query form (`query-input.tsx`) -/

/-- `handleSubmit` of `QueryInput`: after `preventDefault`, the `onSubmit`
callback fires with the trimmed query exactly when `query.trim()` is truthy
and the form is neither loading nor disabled.  The returned value is the
argument passed to `onSubmit`, or `none` when no callback is invoked. -/
def handleSubmit (query : String) (isLoading disabled : Bool) : Option String :=
  if jsTrim query ≠ "" ∧ isLoading = false ∧ disabled = false then
    some (jsTrim query)
  else
    none

/-! ## Error banner (`error-banner.tsx`) -/

/-- The `limitTypeIcons` record lookup of the banner. -/
def limitTypeIcons (lt : String) : Option String :=
  if lt = "TPM" then some "Tokens/min"
  else if lt = "RPM" then some "Requests/min"
  else if lt = "RPD" then some "Requests/day"
  else if lt = "TPD" then some "Tokens/day"
  else if lt = "unknown" then some "Rate limit"
  else none

/-- Text of the limit-kind chip:
`limitTypeIcons[limit_type] || limit_type_friendly`. -/
def rateLimitChipLabel (rl : RateLimitInfo) : String :=
  jsOrString (limitTypeIcons rl.limit_type) rl.limit_type_friendly

/-- Text of the retry chip: rendered only when `retry_after` is truthy, and
then it shows the provider's `retry_after_friendly` string verbatim. -/
def retryChip (rl : RateLimitInfo) : Option String :=
  match rl.retry_after with
  | none => none
  | some q => if q = 0 then none else some ("Retry in " ++ rl.retry_after_friendly)

/-! ## Download-marker extraction (`response-viewer.tsx`, `extractDownloadInfo`) -/

/-- The literal part of the `/\[DOWNLOAD_PPTX:([^\]]+)\]/` pattern. -/
def markerChars : List Char := "[DOWNLOAD_PPTX:".toList

/-- The regex character class `[^\]]`. -/
def nonBracket (c : Char) : Bool := c ≠ ']'

/-- Try to match the download marker at the head of the character list,
mirroring the regex: the literal, then a non-empty greedy run of
`[^\]]` characters, then `]`.  The greedy run is `takeWhile nonBracket`;
whatever `dropWhile nonBracket` leaves necessarily starts with `]` when it
is non-empty, which is exactly when the required closing bracket exists.
Returns the capture and the remainder after the closing bracket. -/
def matchMarkerAt (cs : List Char) : Option (List Char × List Char) :=
  if markerChars.isPrefixOf cs then
    if (cs.drop markerChars.length).takeWhile nonBracket = [] then none
    else
      match (cs.drop markerChars.length).dropWhile nonBracket with
      | [] => none
      | _ :: tl => some ((cs.drop markerChars.length).takeWhile nonBracket, tl)
  else none

/-- Leftmost match of the download marker: the characters before the match,
the captured filename, and the characters after the match. -/
def findMarker : List Char → Option (List Char × List Char × List Char)
  | [] => none
  | c :: rest =>
    match matchMarkerAt (c :: rest) with
    | some (f, tail) => some ([], f, tail)
    | none =>
      match findMarker rest with
      | some (pre, f, tail) => some (c :: pre, f, tail)
      | none => none

/-- `extractDownloadInfo`: a falsy response yields no filename and `""`;
otherwise the first `[DOWNLOAD_PPTX:...]` marker, if any, is captured and
removed (`response.replace(downloadRegex, "")` replaces only the first
match of a non-global regex), and without a marker the response is
returned unchanged. -/
def extractDownloadInfo (response : Option String) : Option String × String :=
  match response with
  | none => (none, "")
  | some s =>
    if s = "" then (none, "")
    else
      match findMarker s.toList with
      | some (pre, fname, tail) => (some (String.mk fname), String.mk (pre ++ tail))
      | none => (none, s)

/-- What it means for `cs` to decompose at `pre` into a well-formed download
marker with capture `f` followed by `tail`: written from the claim's words,
to be compared with the matcher embedded from the source. -/
def IsMarkerSplitAt (cs pre f tail : List Char) : Prop :=
  cs = pre ++ markerChars ++ f ++ ']' :: tail ∧ f ≠ [] ∧ ']' ∉ f

/-! ## Workflow engine: Critic loop decision and iteration bound

Modelled from the spec: the LangGraph agent sources
(`packages/agent/src/copilot/agent/nodes/critic.py` and the graph wiring)
are not part of this repository's sources; only the design document and the
READMEs describe them.  The spec says the Critic's decision is pure state
machine logic: `decision = LOOP_BACK if score < threshold and
iteration < maxIterations else PROCEED`, with `iteration` starting at 0 and
incremented once per Critic evaluation, `iteration <= maxIterations` always,
and `decision == LOOP_BACK` implying `iteration < maxIterations`. -/

/-- The Critic's loop decision. -/
inductive LoopDecision where
  | LOOP_BACK
  | PROCEED
deriving DecidableEq, Repr

/-- Modelled from the spec: one Critic evaluation.  It increments the
iteration counter (once per Critic evaluation) and decides `LOOP_BACK`
exactly when the score is below the threshold and the recorded iteration
counter is still below `maxIterations`; otherwise `PROCEED`. -/
def criticStep (threshold : ℚ) (maxIterations : ℕ) (iteration : ℕ) (score : ℚ) :
    ℕ × LoopDecision :=
  let it := iteration + 1
  (it, if score < threshold ∧ it < maxIterations then LoopDecision.LOOP_BACK
       else LoopDecision.PROCEED)

/-- Modelled from the spec: number of Critic evaluations the engine performs
from iteration counter `iteration` on, when pass `i` of the Critic sees
score `scores i`.  The engine loops back to the Retriever exactly while the
Critic decides `LOOP_BACK`; termination is structural, by the iteration
counter approaching `maxIterations`. -/
def criticEvalsFrom (threshold : ℚ) (maxIterations : ℕ) (scores : ℕ → ℚ)
    (iteration : ℕ) : ℕ :=
  if h : scores iteration < threshold ∧ iteration + 1 < maxIterations then
    1 + criticEvalsFrom threshold maxIterations scores (iteration + 1)
  else
    1
termination_by maxIterations - iteration
decreasing_by
  obtain ⟨-, h2⟩ := h
  omega

/-- Critic evaluations in a whole session (iteration counter starts at 0). -/
def criticEvals (threshold : ℚ) (maxIterations : ℕ) (scores : ℕ → ℚ) : ℕ :=
  criticEvalsFrom threshold maxIterations scores 0

/-- Stage passes of a session: one Retriever→Analyzer→Critic pass per Critic
evaluation, plus the final Generator→Responder pass. -/
def pipelinePasses (threshold : ℚ) (maxIterations : ℕ) (scores : ℕ → ℚ) : ℕ :=
  criticEvals threshold maxIterations scores + 1

/-! ## Financial-data MCP server (Alpha Vantage) tool handlers -/

/-- JS truthiness of a possibly-missing string field of an API record. -/
def truthyStr : Option String → Bool
  | none => false
  | some s => s ≠ ""

/-- Raw `OVERVIEW` record, with the fields the handlers read.  Alpha Vantage
returns every value as a string; a missing key is `none`. -/
structure RawOverview where
  Symbol : Option String
  Name : Option String
  Description : Option String
  Sector : Option String
  Industry : Option String
  MarketCapitalization : Option String
  peRatioField : Option String
  pegRatioField : Option String
  BookValue : Option String
  DividendPerShare : Option String
  DividendYield : Option String
  EPS : Option String
  RevenuePerShareTTM : Option String
  ProfitMargin : Option String
  OperatingMarginTTM : Option String
  ReturnOnAssetsTTM : Option String
  ReturnOnEquityTTM : Option String
  RevenueTTM : Option String
  GrossProfitTTM : Option String
  QuarterlyEarningsGrowthYOY : Option String
  QuarterlyRevenueGrowthYOY : Option String
  AnalystTargetPrice : Option String
  week52High : Option String
  week52Low : Option String
  Beta : Option String
deriving DecidableEq, Repr

/-- Raw `GLOBAL_QUOTE` inner record (keys `"01. symbol"` .. `"10. change percent"`). -/
structure RawQuoteRecord where
  symbol01 : Option String
  open02 : Option String
  high03 : Option String
  low04 : Option String
  price05 : Option String
  volume06 : Option String
  latestTradingDay07 : Option String
  previousClose08 : Option String
  change09 : Option String
  changePercent10 : Option String
deriving DecidableEq, Repr

/-- Raw `INCOME_STATEMENT` report entry. -/
structure RawIncomeReport where
  fiscalDateEnding : Option String
  reportedCurrency : Option String
  totalRevenue : Option String
  grossProfit : Option String
  operatingIncome : Option String
  netIncome : Option String
  ebitda : Option String
  costOfRevenue : Option String
  researchAndDevelopment : Option String
  operatingExpenses : Option String
  interestExpense : Option String
deriving DecidableEq, Repr

/-- Raw `INCOME_STATEMENT` response. -/
structure RawIncome where
  annualReports : Option (List RawIncomeReport)
  quarterlyReports : Option (List RawIncomeReport)
deriving DecidableEq, Repr

/-- Per-ticker sentiment entry of a news article. -/
structure RawTickerSentiment where
  ticker : String
  relevance_score : String
  ticker_sentiment_label : String
deriving DecidableEq, Repr

/-- Raw `NEWS_SENTIMENT` feed article. -/
structure RawArticle where
  title : String
  url : String
  time_published : String
  summary : Option String
  source : String
  overall_sentiment_label : String
  overall_sentiment_score : ℚ
  ticker_sentiment : Option (List RawTickerSentiment)
deriving DecidableEq, Repr

/-- Raw `NEWS_SENTIMENT` response. -/
structure RawNews where
  feed : Option (List RawArticle)
deriving DecidableEq, Repr

/-- The Alpha Vantage backend as an oracle: each endpoint, keyed by the
already-uppercased symbol, either returns parsed data or fails (missing API
key, HTTP/network error, `Error Message`, or the rate-limit `Note` — all of
which `fetchAlphaVantage` turns into a thrown `Error`). -/
structure AlphaVantageApi where
  overview : String → Except String RawOverview
  quote : String → Except String (Option RawQuoteRecord)
  income : String → Except String RawIncome
  news : String → ℕ → Except String RawNews

/-- JSON payload of a successful `get_company_overview`. -/
structure OverviewPayload where
  symbol : Option String
  name : Option String
  description : Option String
  sector : Option String
  industry : Option String
  marketCap : Option String
  peRatio : Option String
  pegRatio : Option String
  bookValue : Option String
  dividendPerShare : Option String
  dividendYield : Option String
  eps : Option String
  revenuePerShareTTM : Option String
  profitMargin : Option String
  operatingMarginTTM : Option String
  returnOnAssetsTTM : Option String
  returnOnEquityTTM : Option String
  revenueTTM : Option String
  grossProfitTTM : Option String
  quarterlyEarningsGrowthYOY : Option String
  quarterlyRevenueGrowthYOY : Option String
  analystTargetPrice : Option String
  week52High : Option String
  week52Low : Option String
  beta : Option String
deriving DecidableEq, Repr

/-- Result of a tool handler: the JSON object it stringifies is either a
payload, or an object whose `error` field is set (optionally with a
`suggestion`).  `JSON.stringify` on these records always succeeds, so a
handler returning a `ToolOutput` value models a handler returning a JSON
string without throwing. -/
inductive ToolOutput (α : Type) where
  | ok (payload : α)
  | err (error : String) (suggestion : Option String)
deriving DecidableEq, Repr

/-- Whether the JSON object a handler returned carries an `error` field. -/
def ToolOutput.hasErrorField {α : Type} : ToolOutput α → Bool
  | .ok _ => false
  | .err _ _ => true

/-- `handleGetCompanyOverview`: fetch `OVERVIEW` for the uppercased symbol;
a falsy `Symbol` field means not-found, any thrown error is caught and
converted into an `error` JSON object. -/
def handleGetCompanyOverview (api : AlphaVantageApi) (symbol : String) :
    ToolOutput OverviewPayload :=
  match api.overview (jsToUpper symbol) with
  | .error e =>
      .err ("Failed to get company overview: " ++ e) none
  | .ok d =>
      if truthyStr d.Symbol then
        .ok { symbol := d.Symbol, name := d.Name, description := d.Description,
              sector := d.Sector, industry := d.Industry,
              marketCap := d.MarketCapitalization, peRatio := d.peRatioField,
              pegRatio := d.pegRatioField, bookValue := d.BookValue,
              dividendPerShare := d.DividendPerShare, dividendYield := d.DividendYield,
              eps := d.EPS, revenuePerShareTTM := d.RevenuePerShareTTM,
              profitMargin := d.ProfitMargin, operatingMarginTTM := d.OperatingMarginTTM,
              returnOnAssetsTTM := d.ReturnOnAssetsTTM,
              returnOnEquityTTM := d.ReturnOnEquityTTM, revenueTTM := d.RevenueTTM,
              grossProfitTTM := d.GrossProfitTTM,
              quarterlyEarningsGrowthYOY := d.QuarterlyEarningsGrowthYOY,
              quarterlyRevenueGrowthYOY := d.QuarterlyRevenueGrowthYOY,
              analystTargetPrice := d.AnalystTargetPrice, week52High := d.week52High,
              week52Low := d.week52Low, beta := d.Beta }
      else
        .err ("Company not found: " ++ symbol)
          (some "Please verify the stock ticker symbol")

/-- JSON payload of a successful `get_stock_quote`. -/
structure QuotePayload where
  symbol : Option String
  price : Option String
  change : Option String
  changePercent : Option String
  openPrice : Option String
  high : Option String
  low : Option String
  volume : Option String
  latestTradingDay : Option String
  previousClose : Option String
deriving DecidableEq, Repr

/-- `handleGetStockQuote`: fetch `GLOBAL_QUOTE`; a missing `Global Quote`
object or falsy `"01. symbol"` is not-found; thrown errors are caught. -/
def handleGetStockQuote (api : AlphaVantageApi) (symbol : String) :
    ToolOutput QuotePayload :=
  match api.quote (jsToUpper symbol) with
  | .error e =>
      .err ("Failed to get stock quote: " ++ e) none
  | .ok q =>
      match q with
      | none =>
          .err ("Quote not found for: " ++ symbol)
            (some "Please verify the stock ticker symbol")
      | some quote =>
          if truthyStr quote.symbol01 then
            .ok { symbol := quote.symbol01, price := quote.price05,
                  change := quote.change09, changePercent := quote.changePercent10,
                  openPrice := quote.open02, high := quote.high03, low := quote.low04,
                  volume := quote.volume06, latestTradingDay := quote.latestTradingDay07,
                  previousClose := quote.previousClose08 }
          else
            .err ("Quote not found for: " ++ symbol)
              (some "Please verify the stock ticker symbol")

/-- JSON payload of a successful `get_income_statement`. -/
structure IncomePayload where
  symbol : String
  fiscalDateEnding : Option String
  reportedCurrency : Option String
  totalRevenue : Option String
  grossProfit : Option String
  operatingIncome : Option String
  netIncome : Option String
  ebitda : Option String
  costOfRevenue : Option String
  researchAndDevelopment : Option String
  operatingExpenses : Option String
  interestExpense : Option String
  period : String
deriving DecidableEq, Repr

/-- `handleGetIncomeStatement`: choose quarterly or annual reports, take the
latest; absent or empty report lists are not-found; thrown errors are caught. -/
def handleGetIncomeStatement (api : AlphaVantageApi) (symbol : String)
    (period : String) : ToolOutput IncomePayload :=
  match api.income (jsToUpper symbol) with
  | .error e =>
      .err ("Failed to get income statement: " ++ e) none
  | .ok d =>
      let reports := if period = "quarterly" then d.quarterlyReports else d.annualReports
      match reports with
      | none => .err ("Income statement not found for: " ++ symbol) none
      | some [] => .err ("Income statement not found for: " ++ symbol) none
      | some (latest :: _) =>
          .ok { symbol := jsToUpper symbol, fiscalDateEnding := latest.fiscalDateEnding,
                reportedCurrency := latest.reportedCurrency,
                totalRevenue := latest.totalRevenue, grossProfit := latest.grossProfit,
                operatingIncome := latest.operatingIncome, netIncome := latest.netIncome,
                ebitda := latest.ebitda, costOfRevenue := latest.costOfRevenue,
                researchAndDevelopment := latest.researchAndDevelopment,
                operatingExpenses := latest.operatingExpenses,
                interestExpense := latest.interestExpense, period := period }

/-- One mapped article of a `get_news_sentiment` payload. -/
structure ArticlePayload where
  title : String
  source : String
  publishedAt : String
  summary : Option String
  url : String
  overallSentiment : String
  sentimentScore : ℚ
  tickerRelevance : Option String
  tickerSentimentLabel : Option String
deriving DecidableEq, Repr

/-- JSON object of a `get_news_sentiment` call that did not throw: either the
article list, or the explicit no-news message (both without `error`). -/
inductive NewsOutput where
  | result (symbol : String) (articleCount : ℕ) (articles : List ArticlePayload)
  | noNews (symbol : String) (message : String)
  | err (error : String)
deriving DecidableEq, Repr

/-- Whether the news JSON object carries an `error` field. -/
def NewsOutput.hasErrorField : NewsOutput → Bool
  | .err _ => true
  | _ => false

/-- Map one raw feed article to the returned shape (`summary` truncated to
200 characters, per-ticker sentiment looked up for the queried symbol). -/
def mapArticle (symbolUpper : String) (a : RawArticle) : ArticlePayload :=
  let ts := (a.ticker_sentiment.getD []).find? (fun t => t.ticker = symbolUpper)
  { title := a.title, source := a.source, publishedAt := a.time_published,
    summary := a.summary.map (fun s => String.mk (s.toList.take 200)),
    url := a.url, overallSentiment := a.overall_sentiment_label,
    sentimentScore := a.overall_sentiment_score,
    tickerRelevance := ts.map (fun t => t.relevance_score),
    tickerSentimentLabel := ts.map (fun t => t.ticker_sentiment_label) }

/-- `handleGetNewsSentiment`: fetch `NEWS_SENTIMENT` with the limit clamped
to 50, slice the feed to `limit` articles; an absent or empty feed yields the
no-news object; thrown errors are caught. -/
def handleGetNewsSentiment (api : AlphaVantageApi) (symbol : String) (limit : ℕ) :
    NewsOutput :=
  match api.news (jsToUpper symbol) (min limit 50) with
  | .error e =>
      .err ("Failed to get news sentiment: " ++ e)
  | .ok d =>
      match d.feed with
      | none => .noNews (jsToUpper symbol) "No recent news found"
      | some [] => .noNews (jsToUpper symbol) "No recent news found"
      | some feed =>
          let articles := (feed.take limit).map (mapArticle (jsToUpper symbol))
          .result (jsToUpper symbol) articles.length articles

/-- The comparison row pushed for a symbol whose `OVERVIEW` has a truthy
`Symbol` field. -/
structure ComparisonRecord where
  symbol : Option String
  name : Option String
  sector : Option String
  marketCap : Option String
  peRatio : Option String
  eps : Option String
  profitMargin : Option String
  revenueTTM : Option String
  returnOnEquityTTM : Option String
  dividendYield : Option String
  week52High : Option String
  week52Low : Option String
deriving DecidableEq, Repr

/-- One entry of the `comparison` array: either a data row, or the logged gap
`{symbol, error: "Failed to fetch data"}` the per-symbol `catch` pushes. -/
inductive CompareEntry where
  | row (c : ComparisonRecord)
  | gap (symbol : String) (error : String)
deriving DecidableEq, Repr

/-- The comparison row built from a raw `OVERVIEW` record. -/
def mkComparison (d : RawOverview) : ComparisonRecord :=
  { symbol := d.Symbol, name := d.Name, sector := d.Sector,
    marketCap := d.MarketCapitalization, peRatio := d.peRatioField, eps := d.EPS,
    profitMargin := d.ProfitMargin, revenueTTM := d.RevenueTTM,
    returnOnEquityTTM := d.ReturnOnEquityTTM, dividendYield := d.DividendYield,
    week52High := d.week52High, week52Low := d.week52Low }

/-- The whole JSON object `handleCompareCompanies` stringifies. -/
structure CompareResult where
  comparison : List CompareEntry
  symbolsRequested : ℕ
  symbolsReturned : ℕ
  note : Option String
deriving DecidableEq, Repr

/-- `handleCompareCompanies`: iterate over at most the first 5 symbols; each
symbol's fetch is wrapped in its own `try`/`catch`, so a failure pushes a gap
entry and the loop continues with the remaining symbols.  (The 500 ms
rate-limit delay between calls is timing behaviour outside the embedding.) -/
def handleCompareCompanies (api : AlphaVantageApi) (symbols : List String) :
    CompareResult :=
  let limited := symbols.take 5
  let comparisons := limited.foldl
    (fun acc sym =>
      match api.overview (jsToUpper sym) with
      | .ok d =>
          if truthyStr d.Symbol then acc ++ [CompareEntry.row (mkComparison d)] else acc
      | .error _ =>
          acc ++ [CompareEntry.gap (jsToUpper sym) "Failed to fetch data"]) []
  { comparison := comparisons,
    symbolsRequested := symbols.length,
    symbolsReturned := comparisons.length,
    note := if symbols.length > 5
            then some "Limited to 5 companies to avoid API rate limits"
            else none }

/-- The entries one symbol contributes to the comparison array. -/
def compareEntriesFor (api : AlphaVantageApi) (sym : String) : List CompareEntry :=
  match api.overview (jsToUpper sym) with
  | .ok d => if truthyStr d.Symbol then [CompareEntry.row (mkComparison d)] else []
  | .error _ => [CompareEntry.gap (jsToUpper sym) "Failed to fetch data"]

/-! ## Theorems -/

theorem addEvent_isLoading (t m : String) (n : Option String) (md : Option EventMeta)
    (s : ClientState) : (addEvent t m n md s).isLoading = s.isLoading := rfl

theorem addEvent_streamClosed (t m : String) (n : Option String) (md : Option EventMeta)
    (s : ClientState) : (addEvent t m n md s).streamClosed = s.streamClosed := rfl

theorem processSSE_streamClosed (query : String) (e : SSEData) (s : ClientState) :
    (processSSE query e s).streamClosed =
      if e.type = "complete" ∨ e.type = "error" then true else s.streamClosed := by
  unfold processSSE
  split <;> simp_all [addEvent]

theorem processSSE_isLoading (query : String) (e : SSEData) (s : ClientState) :
    (processSSE query e s).isLoading =
      if e.type = "complete" ∨ e.type = "error" then false else s.isLoading := by
  unfold processSSE
  split <;> simp_all [addEvent]

/-- C3: an event processed by `handleSSEEvent` closes the streaming
connection exactly when its type is `complete` or `error`; in both of those
cases `isLoading` becomes false, and no other event type closes the stream
or changes the loading state. -/
theorem c3_stream_closes_exactly_on_terminal_events (query : String) (e : SSEData)
    (s : ClientState) (h : s.streamClosed = false) :
    ((processSSE query e s).streamClosed = true ↔ (e.type = "complete" ∨ e.type = "error"))
    ∧ ((e.type = "complete" ∨ e.type = "error") → (processSSE query e s).isLoading = false)
    ∧ (¬(e.type = "complete" ∨ e.type = "error") →
        (processSSE query e s).isLoading = s.isLoading) := by
  refine ⟨?_, ?_, ?_⟩
  · rw [processSSE_streamClosed]
    split_ifs with hc
    · simp [hc]
    · simp [h, hc]
  · intro hc
    rw [processSSE_isLoading]
    simp [hc]
  · intro hc
    rw [processSSE_isLoading]
    simp [hc]

/-- C3 witness: in a fresh session, a `progress` event leaves the stream open
and the loading flag untouched, while a `complete` event closes the stream
and ends loading. -/
theorem c3_witness :
    ((processSSE "q" (sseOfType "complete") clientResetState).streamClosed = true
      ↔ ((sseOfType "complete").type = "complete" ∨ (sseOfType "complete").type = "error"))
    ∧ (processSSE "q" (sseOfType "progress") clientResetState).isLoading
        = clientResetState.isLoading :=
  ⟨(c3_stream_closes_exactly_on_terminal_events "q" (sseOfType "complete")
      clientResetState rfl).1,
   (c3_stream_closes_exactly_on_terminal_events "q" (sseOfType "progress")
      clientResetState rfl).2.2 (by decide)⟩

/-- C4: processing any stream event either appends exactly one record to the
end of the event list or leaves it unchanged; the previously recorded prefix
is never removed, reordered, or modified. -/
theorem c4_event_log_append_only (query : String) (e : SSEData) (s : ClientState) :
    ∃ tl : List LogEvent,
      (processSSE query e s).events = s.events ++ tl ∧ tl.length ≤ 1 := by
  unfold processSSE
  split
  all_goals first
    | exact ⟨_, rfl, by simp [addEvent]⟩
    | exact ⟨[], by simp, by simp⟩

/-- Invariant tying the recorded ids to the counter: the event list carries
exactly the ids `event-0 .. event-(counter-1)`, in order. -/
def idsCanonical (s : ClientState) : Prop :=
  s.events.map LogEvent.id = (List.range s.eventIdCounter).map eventIdString

theorem idsCanonical_addEvent (t m : String) (n : Option String) (md : Option EventMeta)
    (s : ClientState) (h : idsCanonical s) : idsCanonical (addEvent t m n md s) := by
  unfold idsCanonical at h ⊢
  simp [addEvent, List.range_succ, h]

theorem idsCanonical_processSSE (query : String) (e : SSEData) (s : ClientState)
    (h : idsCanonical s) : idsCanonical (processSSE query e s) := by
  unfold processSSE
  split
  all_goals first
    | exact idsCanonical_addEvent _ _ _ _ _ h
    | exact h

theorem idsCanonical_processEvents (query : String) (es : List SSEData) :
    ∀ s : ClientState, idsCanonical s → idsCanonical (processEvents query es s) := by
  induction es with
  | nil => intro s h; exact h
  | cons e rest ih =>
      intro s h
      exact ih (processSSE query e s) (idsCanonical_processSSE query e s h)

/-- C2 (amended): within one session — any sequence of stream events
processed from the state `submitQuery` resets — the recorded event ids are
exactly `event-0, event-1, ...` in order: strictly increasing and gapless,
starting from 0 (not 1), each `addEvent` call taking the next consecutive
counter value. -/
theorem c2_event_ids_consecutive_from_zero (query : String) (es : List SSEData) :
    (processEvents query es clientResetState).events.map LogEvent.id =
      (List.range (processEvents query es clientResetState).events.length).map
        eventIdString := by
  have h : idsCanonical (processEvents query es clientResetState) :=
    idsCanonical_processEvents query es clientResetState (by simp [idsCanonical, clientResetState])
  have hlen : (processEvents query es clientResetState).events.length =
      (processEvents query es clientResetState).eventIdCounter := by
    have := congrArg List.length h
    simpa using this
  rw [hlen]
  exact h

/-- C2 counterexample: the first recorded event of a fresh session gets id
`event-0`, not `event-1` — ids are gapless from 0, refuting the claim that
they start from 1. -/
theorem c2_counterexample_first_id_is_event_zero :
    (processEvents "q" [sseOfType "start"] clientResetState).events.map LogEvent.id
        = ["event-0"]
    ∧ ("event-0" : String) ≠ "event-1" := by
  constructor
  · rfl
  · decide

theorem criticEvalsFrom_le_sub (threshold : ℚ) (m : ℕ) (scores : ℕ → ℚ) :
    ∀ k i : ℕ, m - i ≤ k → i < m →
      criticEvalsFrom threshold m scores i ≤ m - i := by
  intro k
  induction k with
  | zero => intro i hk hi; omega
  | succ k ih =>
      intro i hk hi
      unfold criticEvalsFrom
      split_ifs with h
      · have h2 := h.2
        have hrec := ih (i + 1) (by omega) h2
        omega
      · omega

/-- C1: the Critic's decision is `LOOP_BACK` exactly when the score is below
the threshold and the iteration counter it records is below `maxIterations`,
and otherwise `PROCEED`; consequently, for every sequence of critic scores,
the engine performs at most `maxIterations` Critic evaluations and the
pipeline terminates within `maxIterations + 1` stage passes regardless of
what scores the model produces. -/
theorem c1_critic_decision_iff_and_bounded_evals (threshold : ℚ) (maxIterations : ℕ)
    (scores : ℕ → ℚ) (h : 0 < maxIterations) :
    (∀ (iteration : ℕ) (score : ℚ),
        (criticStep threshold maxIterations iteration score).2 = LoopDecision.LOOP_BACK
          ↔ score < threshold
            ∧ (criticStep threshold maxIterations iteration score).1 < maxIterations)
    ∧ criticEvals threshold maxIterations scores ≤ maxIterations
    ∧ pipelinePasses threshold maxIterations scores ≤ maxIterations + 1 := by
  have hb : criticEvals threshold maxIterations scores ≤ maxIterations := by
    have := criticEvalsFrom_le_sub threshold maxIterations scores maxIterations 0
      (by omega) h
    simpa [criticEvals] using this
  refine ⟨?_, hb, ?_⟩
  · intro i sc
    simp only [criticStep]
    split_ifs with hc
    · simpa using hc
    · constructor
      · intro habs; exact absurd habs (by simp)
      · intro hcc; exact absurd hcc hc
  · simpa [pipelinePasses] using Nat.add_le_add_right hb 1

/-- C1 witness: with the default threshold 0.8 and `maxIterations = 3`, even
a model that always scores 0 triggers at most 3 Critic evaluations and at
most 4 stage passes. -/
theorem c1_witness :
    0 < 3
    ∧ criticEvals (4/5 : ℚ) 3 (fun _ => 0) ≤ 3
    ∧ pipelinePasses (4/5 : ℚ) 3 (fun _ => 0) ≤ 3 + 1 :=
  ⟨by decide,
   (c1_critic_decision_iff_and_bounded_evals (4/5 : ℚ) 3 (fun _ => 0) (by decide)).2.1,
   (c1_critic_decision_iff_and_bounded_evals (4/5 : ℚ) 3 (fun _ => 0) (by decide)).2.2⟩

/-- C5: a query that trims to the empty string (empty or whitespace-only)
never reaches the `onSubmit` callback, so no request is issued and no
session is created; any non-blank query is submitted trimmed (when the form
is neither loading nor disabled). -/
theorem c5_blank_query_rejected_nonblank_trimmed (query : String)
    (isLoading disabled : Bool) :
    (jsTrim query = "" → handleSubmit query isLoading disabled = none)
    ∧ (jsTrim query ≠ "" → handleSubmit query false false = some (jsTrim query)) := by
  constructor
  · intro h
    simp [handleSubmit, h]
  · intro h
    simp [handleSubmit, h]

/-- C5 witness: a whitespace-only query is dropped; a padded query is
submitted trimmed. -/
theorem c5_witness :
    handleSubmit "   " true false = none
    ∧ handleSubmit "  hello  " false false = some "hello" := by
  constructor
  · exact (c5_blank_query_rejected_nonblank_trimmed "   " true false).1 (by decide)
  · exact ((c5_blank_query_rejected_nonblank_trimmed "  hello  " false false).2
      (by decide)).trans (by decide)

/-- C6: when an `error` event arrives, the client stores the event's
`rate_limit` payload verbatim in the error state; the banner's limit-kind
chip distinguishes tokens-per-minute, requests-per-minute and
requests-per-day limits, and its retry chip shows the provider's
`retry_after_friendly` value verbatim whenever the provider communicated a
(truthy) `retry_after` duration. -/
theorem c6_rate_limit_info_kept_verbatim (query : String) (e : SSEData)
    (s : ClientState) (h : e.type = "error") :
    ((processSSE query e s).error).map ErrorInfo.rate_limit = some e.rate_limit
    ∧ (∀ rl : RateLimitInfo, rl.limit_type = "TPM" → rateLimitChipLabel rl = "Tokens/min")
    ∧ (∀ rl : RateLimitInfo, rl.limit_type = "RPM" → rateLimitChipLabel rl = "Requests/min")
    ∧ (∀ rl : RateLimitInfo, rl.limit_type = "RPD" → rateLimitChipLabel rl = "Requests/day")
    ∧ (∀ (rl : RateLimitInfo) (q : ℚ), rl.retry_after = some q → q ≠ 0 →
        retryChip rl = some ("Retry in " ++ rl.retry_after_friendly)) := by
  refine ⟨?_, ?_, ?_, ?_, ?_⟩
  · unfold processSSE
    split <;> simp_all
  · intro rl hl
    simp [rateLimitChipLabel, limitTypeIcons, hl, jsOrString]
  · intro rl hl
    simp [rateLimitChipLabel, limitTypeIcons, hl, jsOrString]
  · intro rl hl
    simp [rateLimitChipLabel, limitTypeIcons, hl, jsOrString]
  · intro rl q hq hq0
    simp [retryChip, hq, hq0]

/-- C6 witness: a concrete Groq TPM rate-limit error event is stored with
its rate-limit payload untouched. -/
theorem c6_witness :
    ((processSSE "q"
        { sseOfType "error" with
            error := some "Rate limit reached",
            error_type := some "rate_limit",
            rate_limit := some { limit_type := "TPM", limit_type_friendly := "Tokens per minute",
                                 retry_after := some 45, retry_after_friendly := "45 seconds",
                                 suggestion := "Switch to Ollama" } }
        clientResetState).error).map ErrorInfo.rate_limit
      = some (some { limit_type := "TPM", limit_type_friendly := "Tokens per minute",
                     retry_after := some 45, retry_after_friendly := "45 seconds",
                     suggestion := "Switch to Ollama" }) :=
  (c6_rate_limit_info_kept_verbatim "q" _ clientResetState rfl).1

/-- C8: for a `final_response` event whose `quality_score` is exactly 0 the
client stores `qualityScore` as `null` — indistinguishable from an event
carrying no score at all — and an empty-string `response` is likewise stored
as `null`. -/
theorem c8_zero_quality_score_stored_as_null (query : String) (e : SSEData)
    (s : ClientState) (h : e.type = "final_response") :
    (e.quality_score = some 0 → (processSSE query e s).qualityScore = none)
    ∧ (e.quality_score = none → (processSSE query e s).qualityScore = none)
    ∧ (e.response = some "" → (processSSE query e s).response = none) := by
  refine ⟨?_, ?_, ?_⟩
  · intro hq
    unfold processSSE
    split <;> simp_all [addEvent, jsOrNullNum]
  · intro hq
    unfold processSSE
    split <;> simp_all [addEvent, jsOrNullNum]
  · intro hr
    unfold processSSE
    split <;> simp_all [addEvent, jsOrNullString]

/-- C8 witness: a `final_response` event reporting `quality_score = 0` and an
empty response leaves both fields `null` in the client state. -/
theorem c8_witness :
    (processSSE "q" { sseOfType "final_response" with quality_score := some 0 }
        clientResetState).qualityScore = none
    ∧ (processSSE "q" { sseOfType "final_response" with response := some "" }
        clientResetState).response = none :=
  ⟨(c8_zero_quality_score_stored_as_null "q" _ clientResetState rfl).1 rfl,
   (c8_zero_quality_score_stored_as_null "q" _ clientResetState rfl).2.2 rfl⟩

theorem compare_foldl_eq_flatMap (api : AlphaVantageApi) :
    ∀ (l : List String) (a : List CompareEntry),
      l.foldl
        (fun acc sym =>
          match api.overview (jsToUpper sym) with
          | .ok d =>
              if truthyStr d.Symbol then acc ++ [CompareEntry.row (mkComparison d)]
              else acc
          | .error _ =>
              acc ++ [CompareEntry.gap (jsToUpper sym) "Failed to fetch data"]) a
        = a ++ l.flatMap (compareEntriesFor api) := by
  intro l
  induction l with
  | nil => intro a; simp
  | cons x xs ih =>
      intro a
      simp only [List.foldl_cons, List.flatMap_cons]
      cases h : api.overview (jsToUpper x) with
      | ok d =>
          by_cases ht : truthyStr d.Symbol
          · simp [compareEntriesFor, h, ht, ih]
          · simp [compareEntriesFor, h, ht, ih]
      | error msg =>
          simp [compareEntriesFor, h, ih]

theorem compareEntriesFor_length_le_one (api : AlphaVantageApi) (sym : String) :
    (compareEntriesFor api sym).length ≤ 1 := by
  unfold compareEntriesFor
  cases api.overview (jsToUpper sym) with
  | ok d => by_cases ht : truthyStr d.Symbol <;> simp [ht]
  | error msg => simp

theorem flatMap_compareEntries_length (api : AlphaVantageApi) :
    ∀ l : List String, (l.flatMap (compareEntriesFor api)).length ≤ l.length := by
  intro l
  induction l with
  | nil => simp
  | cons x xs ih =>
      simp only [List.flatMap_cons, List.length_append, List.length_cons]
      have := compareEntriesFor_length_le_one api x
      omega

theorem handleCompare_comparison_eq (api : AlphaVantageApi) (symbols : List String) :
    (handleCompareCompanies api symbols).comparison
      = (symbols.take 5).flatMap (compareEntriesFor api) := by
  unfold handleCompareCompanies
  simpa using compare_foldl_eq_flatMap api (symbols.take 5) []

/-- C7: in the multi-company fetch, a failure on one symbol contributes
exactly one logged gap entry for that symbol while every other of the (at
most 5 processed) symbols is still fetched and contributes its own entry;
the whole operation returns its result list — the per-symbol `catch` means
no symbol's failure aborts the loop. -/
theorem c7_partial_failure_tolerated (api : AlphaVantageApi) (symbols : List String) :
    (handleCompareCompanies api symbols).comparison
      = (symbols.take 5).flatMap (compareEntriesFor api)
    ∧ (∀ sym ∈ symbols.take 5, ∀ msg, api.overview (jsToUpper sym) = .error msg →
        CompareEntry.gap (jsToUpper sym) "Failed to fetch data"
          ∈ (handleCompareCompanies api symbols).comparison)
    ∧ (∀ sym ∈ symbols.take 5, ∀ d, api.overview (jsToUpper sym) = .ok d →
        truthyStr d.Symbol = true →
        CompareEntry.row (mkComparison d)
          ∈ (handleCompareCompanies api symbols).comparison) := by
  have hmain := handleCompare_comparison_eq api symbols
  refine ⟨hmain, ?_, ?_⟩
  · intro sym hmem msg hfail
    rw [hmain]
    refine List.mem_flatMap.mpr ⟨sym, hmem, ?_⟩
    simp [compareEntriesFor, hfail]
  · intro sym hmem d hok ht
    rw [hmain]
    refine List.mem_flatMap.mpr ⟨sym, hmem, ?_⟩
    simp [compareEntriesFor, hok, ht]

/-- A sample overview record for the witnesses: every field present. -/
def sampleOverview : RawOverview :=
  { Symbol := some "B", Name := some "BCorp", Description := some "d",
    Sector := some "Tech", Industry := some "Software",
    MarketCapitalization := some "1", peRatioField := some "2",
    pegRatioField := some "3", BookValue := some "4", DividendPerShare := some "5",
    DividendYield := some "6", EPS := some "7", RevenuePerShareTTM := some "8",
    ProfitMargin := some "9", OperatingMarginTTM := some "10",
    ReturnOnAssetsTTM := some "11", ReturnOnEquityTTM := some "12",
    RevenueTTM := some "13", GrossProfitTTM := some "14",
    QuarterlyEarningsGrowthYOY := some "15", QuarterlyRevenueGrowthYOY := some "16",
    AnalystTargetPrice := some "17", week52High := some "18", week52Low := some "19",
    Beta := some "20" }

/-- A backend for the witnesses: symbol `A` fails, every other succeeds. -/
def mixedApi : AlphaVantageApi :=
  { overview := fun s => if s = "A" then .error "network down" else .ok sampleOverview,
    quote := fun _ => .error "network down",
    income := fun _ => .error "network down",
    news := fun _ _ => .error "network down" }

/-- C7 witness: with symbol `A` failing and `B` succeeding, comparing
`["A", "B"]` yields both the gap entry for `A` and the data row for `B`. -/
theorem c7_witness :
    CompareEntry.gap (jsToUpper "A") "Failed to fetch data"
        ∈ (handleCompareCompanies mixedApi ["A", "B"]).comparison
    ∧ CompareEntry.row (mkComparison sampleOverview)
        ∈ (handleCompareCompanies mixedApi ["A", "B"]).comparison :=
  ⟨(c7_partial_failure_tolerated mixedApi ["A", "B"]).2.1 "A" (by decide)
      "network down" rfl,
   (c7_partial_failure_tolerated mixedApi ["A", "B"]).2.2 "B" (by decide)
      sampleOverview rfl (by decide)⟩

/-- C10: each financial MCP tool handler is total — in this embedding it
returns a plain result value for every input and every backend behaviour —
and any backend failure is converted into a JSON object carrying an `error`
field; `compare_companies` processes at most the first 5 requested symbols. -/
theorem c10_handlers_total_and_bounded (api : AlphaVantageApi) :
    (∀ symbol msg, api.overview (jsToUpper symbol) = .error msg →
        (handleGetCompanyOverview api symbol).hasErrorField = true)
    ∧ (∀ symbol msg, api.quote (jsToUpper symbol) = .error msg →
        (handleGetStockQuote api symbol).hasErrorField = true)
    ∧ (∀ symbol period msg, api.income (jsToUpper symbol) = .error msg →
        (handleGetIncomeStatement api symbol period).hasErrorField = true)
    ∧ (∀ symbol limit msg, api.news (jsToUpper symbol) (min limit 50) = .error msg →
        (handleGetNewsSentiment api symbol limit).hasErrorField = true)
    ∧ (∀ symbols, (handleCompareCompanies api symbols).comparison
          = (handleCompareCompanies api (symbols.take 5)).comparison)
    ∧ (∀ symbols, (handleCompareCompanies api symbols).comparison.length ≤ 5) := by
  refine ⟨?_, ?_, ?_, ?_, ?_, ?_⟩
  · intro symbol msg h
    simp [handleGetCompanyOverview, h, ToolOutput.hasErrorField]
  · intro symbol msg h
    simp [handleGetStockQuote, h, ToolOutput.hasErrorField]
  · intro symbol period msg h
    simp [handleGetIncomeStatement, h, ToolOutput.hasErrorField]
  · intro symbol limit msg h
    simp [handleGetNewsSentiment, h, NewsOutput.hasErrorField]
  · intro symbols
    rw [handleCompare_comparison_eq, handleCompare_comparison_eq, List.take_take]
    norm_num
  · intro symbols
    rw [handleCompare_comparison_eq]
    calc ((symbols.take 5).flatMap (compareEntriesFor api)).length
        ≤ (symbols.take 5).length := flatMap_compareEntries_length api (symbols.take 5)
      _ ≤ 5 := by simp [List.length_take]

/-- C10 witness: with the failing backend, every handler returns an
error-carrying JSON object instead of raising, and a 7-symbol comparison
yields at most 5 entries. -/
theorem c10_witness :
    (handleGetCompanyOverview mixedApi "A").hasErrorField = true
    ∧ (handleGetStockQuote mixedApi "MSFT").hasErrorField = true
    ∧ (handleGetIncomeStatement mixedApi "MSFT" "annual").hasErrorField = true
    ∧ (handleGetNewsSentiment mixedApi "MSFT" 10).hasErrorField = true
    ∧ (handleCompareCompanies mixedApi
        ["A", "B", "C", "D", "E", "F", "G"]).comparison.length ≤ 5 :=
  ⟨(c10_handlers_total_and_bounded mixedApi).1 "A" "network down" rfl,
   (c10_handlers_total_and_bounded mixedApi).2.1 "MSFT" "network down" rfl,
   (c10_handlers_total_and_bounded mixedApi).2.2.1 "MSFT" "annual" "network down" rfl,
   (c10_handlers_total_and_bounded mixedApi).2.2.2.1 "MSFT" 10 "network down" rfl,
   (c10_handlers_total_and_bounded mixedApi).2.2.2.2.2 ["A", "B", "C", "D", "E", "F", "G"]⟩

theorem takeWhile_marker_split (f tl : List Char) (hf : ']' ∉ f) :
    (f ++ ']' :: tl).takeWhile nonBracket = f
    ∧ (f ++ ']' :: tl).dropWhile nonBracket = ']' :: tl := by
  induction f with
  | nil =>
      constructor <;> simp [List.takeWhile_cons, List.dropWhile_cons, nonBracket]
  | cons c cs ih =>
      have hcne : c ≠ ']' := fun h => hf (by simp [h])
      have hc : nonBracket c = true := by simp [nonBracket, hcne]
      have ihh := ih (fun h => hf (List.mem_cons_of_mem _ h))
      simp only [List.cons_append, List.takeWhile_cons, List.dropWhile_cons, hc,
        if_true, ihh.1, ihh.2]
      simp

theorem matchMarkerAt_some_iff (cs f tl : List Char) :
    matchMarkerAt cs = some (f, tl) ↔
      cs = markerChars ++ f ++ ']' :: tl ∧ f ≠ [] ∧ ']' ∉ f := by
  constructor
  · intro h
    unfold matchMarkerAt at h
    by_cases hp : markerChars.isPrefixOf cs
    · rw [if_pos hp] at h
      obtain ⟨t, ht⟩ := List.isPrefixOf_iff_prefix.mp hp
      subst ht
      rw [List.drop_left] at h
      split_ifs at h with hemp
      cases hd : t.dropWhile nonBracket with
      | nil => rw [hd] at h; simp at h
      | cons c rest' =>
          have hc : c = ']' := by
            have h9 := List.head?_dropWhile_not nonBracket t
            rw [hd] at h9
            simpa [nonBracket] using h9
          subst hc
          rw [hd] at h
          have hft : t.takeWhile nonBracket = f ∧ rest' = tl := by simpa using h
          obtain ⟨hft1, hft2⟩ := hft
          have hdecomp : t = f ++ ']' :: tl := by
            have hjoin := List.takeWhile_append_dropWhile nonBracket t
            rw [hd, hft1, hft2] at hjoin
            exact hjoin.symm
          refine ⟨by rw [hdecomp, List.append_assoc], ?_, ?_⟩
          · rw [← hft1]; exact hemp
          · intro hmem
            rw [← hft1] at hmem
            have := List.mem_takeWhile_imp hmem
            simp [nonBracket] at this
    · rw [if_neg hp] at h
      simp at h
  · rintro ⟨hcs, hf, hmem⟩
    subst hcs
    have hp : markerChars.isPrefixOf (markerChars ++ f ++ ']' :: tl) :=
      List.isPrefixOf_iff_prefix.mpr ⟨f ++ ']' :: tl, rfl⟩
    have hsplit := takeWhile_marker_split f tl hmem
    unfold matchMarkerAt
    rw [if_pos hp, List.append_assoc, List.drop_left, hsplit.1, hsplit.2]
    simp [hf]

theorem findMarker_none_no_split :
    ∀ cs : List Char, findMarker cs = none →
      ∀ pre f tl, ¬IsMarkerSplitAt cs pre f tl := by
  intro cs
  induction cs with
  | nil =>
      intro _ pre f tl hsp
      obtain ⟨hcs, hf, hm⟩ := hsp
      have hlen := congrArg List.length hcs
      simp only [List.length_nil, List.length_append, List.length_cons] at hlen
      have hm15 : markerChars.length = 15 := rfl
      omega
  | cons c rest ih =>
      intro hnone pre f tl hsp
      simp only [findMarker] at hnone
      cases hm : matchMarkerAt (c :: rest) with
      | some pr =>
          obtain ⟨f0, t0⟩ := pr
          rw [hm] at hnone
          simp at hnone
      | none =>
          rw [hm] at hnone
          cases hr : findMarker rest with
          | some trip =>
              obtain ⟨p, f0, t0⟩ := trip
              rw [hr] at hnone
              simp at hnone
          | none =>
              obtain ⟨hcs, hf, hmem⟩ := hsp
              cases pre with
              | nil =>
                  have hmm : matchMarkerAt (c :: rest) = some (f, tl) :=
                    (matchMarkerAt_some_iff _ _ _).mpr ⟨by simpa using hcs, hf, hmem⟩
                  rw [hm] at hmm
                  simp at hmm
              | cons c' pre' =>
                  have hcs' : c = c' ∧ rest = pre' ++ (markerChars ++ (f ++ ']' :: tl)) := by
                    simpa using hcs
                  refine ih hr pre' f tl ⟨?_, hf, hmem⟩
                  simpa [List.append_assoc] using hcs'.2

theorem findMarker_some_first_split :
    ∀ cs pre f tl : List Char, findMarker cs = some (pre, f, tl) →
      IsMarkerSplitAt cs pre f tl
      ∧ ∀ pre' f' tl', IsMarkerSplitAt cs pre' f' tl' → pre.length ≤ pre'.length := by
  intro cs
  induction cs with
  | nil => intro pre f tl h; simp [findMarker] at h
  | cons c rest ih =>
      intro pre f tl h
      simp only [findMarker] at h
      cases hm : matchMarkerAt (c :: rest) with
      | some pr =>
          obtain ⟨f0, t0⟩ := pr
          rw [hm] at h
          have hh : ([] : List Char) = pre ∧ f0 = f ∧ t0 = tl := by
            simpa using h
          obtain ⟨hpre, hf0, ht0⟩ := hh
          subst hpre; subst hf0; subst ht0
          have hsp := (matchMarkerAt_some_iff (c :: rest) f0 t0).mp hm
          refine ⟨⟨by simpa using hsp.1, hsp.2.1, hsp.2.2⟩, ?_⟩
          intro pre' f' tl' _
          simp
      | none =>
          rw [hm] at h
          cases hr : findMarker rest with
          | none => rw [hr] at h; simp at h
          | some trip =>
              obtain ⟨p, f0, t0⟩ := trip
              rw [hr] at h
              have hh : c :: p = pre ∧ f0 = f ∧ t0 = tl := by
                simpa using h
              obtain ⟨hpre, hf0, ht0⟩ := hh
              subst hpre; subst hf0; subst ht0
              obtain ⟨⟨hrs, hfne, hfm⟩, hmin⟩ := ih p f0 t0 hr
              constructor
              · refine ⟨?_, hfne, hfm⟩
                simp only [List.cons_append, List.append_assoc] at hrs ⊢
                rw [hrs]
              · intro pre' f' tl' hsp'
                obtain ⟨hcs', hf', hm'⟩ := hsp'
                cases pre' with
                | nil =>
                    have hmm : matchMarkerAt (c :: rest) = some (f', tl') :=
                      (matchMarkerAt_some_iff _ _ _).mpr ⟨by simpa using hcs', hf', hm'⟩
                    rw [hm] at hmm
                    simp at hmm
                | cons c' pre'' =>
                    have hinj : c = c' ∧ rest = pre'' ++ (markerChars ++ (f' ++ ']' :: tl')) := by
                      simpa using hcs'
                    have hle := hmin pre'' f' tl'
                      ⟨by simpa [List.append_assoc] using hinj.2, hf', hm'⟩
                    simp only [List.length_cons]
                    omega

/-- C9: `extractDownloadInfo` on a null response yields no filename and the
empty string; on a response with no well-formed `[DOWNLOAD_PPTX:...]` marker
it yields no filename and the response unchanged; and whenever it yields a
filename, the response decomposes around its leftmost marker occurrence, the
filename is that first marker's capture, and the cleaned response is the
response with exactly that first marker removed and every other character
preserved verbatim. -/
theorem c9_extract_download_info_spec (response : Option String) :
    (response = none → extractDownloadInfo response = (none, ""))
    ∧ (∀ s : String, response = some s →
        ((∀ pre f tl, ¬IsMarkerSplitAt s.toList pre f tl) →
            extractDownloadInfo response = (none, s))
        ∧ (∀ fname cleaned, extractDownloadInfo response = (some fname, cleaned) →
            ∃ pre tl, IsMarkerSplitAt s.toList pre fname.toList tl
              ∧ cleaned = String.mk (pre ++ tl)
              ∧ ∀ pre' f' tl', IsMarkerSplitAt s.toList pre' f' tl' →
                  pre.length ≤ pre'.length)
        ∧ ((∃ pre f tl, IsMarkerSplitAt s.toList pre f tl) →
            ∃ fname cleaned, extractDownloadInfo response = (some fname, cleaned))) := by
  refine ⟨?_, ?_⟩
  · intro h; subst h; rfl
  · intro s hs
    subst hs
    refine ⟨?_, ?_, ?_⟩
    · intro hnos
      simp only [extractDownloadInfo]
      by_cases hempty : s = ""
      · rw [if_pos hempty, hempty]
      · rw [if_neg hempty]
        cases hfm : findMarker s.toList with
        | some trip =>
            obtain ⟨pre, f, tl⟩ := trip
            exact absurd (findMarker_some_first_split s.toList pre f tl hfm).1
              (hnos pre f tl)
        | none => rfl
    · intro fname cleaned hext
      simp only [extractDownloadInfo] at hext
      by_cases hempty : s = ""
      · rw [if_pos hempty] at hext
        simp at hext
      · rw [if_neg hempty] at hext
        cases hfm : findMarker s.toList with
        | none => rw [hfm] at hext; simp at hext
        | some trip =>
            obtain ⟨pre, f, tl⟩ := trip
            rw [hfm] at hext
            have hh : String.mk f = fname ∧ String.mk (pre ++ tl) = cleaned := by
              simpa using hext
            obtain ⟨h1, h2⟩ := hh
            obtain ⟨hsp, hmin⟩ := findMarker_some_first_split s.toList pre f tl hfm
            refine ⟨pre, tl, ?_, h2.symm, hmin⟩
            rw [← h1]
            exact hsp
    · rintro ⟨pre, f, tl, hsp⟩
      simp only [extractDownloadInfo]
      by_cases hempty : s = ""
      · subst hempty
        exact absurd hsp (findMarker_none_no_split "".toList rfl pre f tl)
      · rw [if_neg hempty]
        cases hfm : findMarker s.toList with
        | none => exact absurd hsp (findMarker_none_no_split s.toList hfm pre f tl)
        | some trip =>
            obtain ⟨p, f0, t0⟩ := trip
            exact ⟨String.mk f0, String.mk (p ++ t0), rfl⟩

/-- C9 witness: on `"A[DOWNLOAD_PPTX:deck.pptx]B"` the extraction captures
`deck.pptx` from the (unique, hence first) marker and removes exactly it,
leaving `"AB"`. -/
theorem c9_witness :
    ∃ pre tl,
      IsMarkerSplitAt ("A[DOWNLOAD_PPTX:deck.pptx]B".toList) pre ("deck.pptx".toList) tl
      ∧ ("AB" : String) = String.mk (pre ++ tl)
      ∧ ∀ pre' f' tl',
          IsMarkerSplitAt ("A[DOWNLOAD_PPTX:deck.pptx]B".toList) pre' f' tl' →
            pre.length ≤ pre'.length :=
  ((c9_extract_download_info_spec (some "A[DOWNLOAD_PPTX:deck.pptx]B")).2
      "A[DOWNLOAD_PPTX:deck.pptx]B" rfl).2.1 "deck.pptx" "AB" (by decide)
